import Mathlib

/-!
A verification development for the port forwarder in `cmd/app/main.go`.

The Go program is embedded shallowly.

* Go `string` values are Lean `String`s.  Go strings are byte sequences; the only
  string operation the program performs is `strings.Split(str, ">")`, and the byte
  `>` occurs in UTF-8 text only as the character `>`, so splitting on characters
  and splitting on bytes agree.
* A Go `error` value is a term of `error`; the Go value `nil` of type `error` is
  `none : Option error`.
* The process environment is a finite association list, as returned by
  `os.Environ`.  The loop counter of `loadConfig` is a natural number: the number
  of environment entries is far below `2^63`, so the Go `int` never wraps.
* Goroutines and blocking calls are embedded as state machines.  A blocking call
  (`net.Listen`, `Accept`, `net.Dial`, `io.Copy`, `eg.Wait`) is a state in which the
  function waits; the outcome of the call arrives as an event, and a script is the
  list of such events in the order in which they happen.
* Only `lgr.Fatal` (which ends the process) is embedded from the logger; the
  informational log lines have no influence on control flow and are left out.
-/

namespace PortForward

/-! ## Go standard library: `strings` -/

namespace strings

/-- The Go function `strings.Index(s, substr)` on the characters of the two
strings: the position of the first instance of `substr` in `s`; `none` stands
for the Go result `-1`. -/
def indexOf (substr : List Char) : List Char → Option Nat
  | [] => if substr = [] then some 0 else none
  | c :: cs =>
    if substr.isPrefixOf (c :: cs) then some 0
    else (indexOf substr cs).map (· + 1)

/-- The general loop of `strings.Count`: repeatedly find `substr` and continue
behind it.  Every round removes at least one character, so `s.length` rounds
are enough; this bound is the first argument. -/
def countLoop (substr : List Char) : Nat → List Char → Nat
  | 0, _ => 0
  | rounds + 1, s =>
    match indexOf substr s with
    | none => 0
    | some i => countLoop substr rounds (s.drop (i + substr.length)) + 1

/-- The Go function `strings.Count(s, substr)`: number of non-overlapping
instances of `substr` in `s`. -/
def Count (s substr : String) : Nat :=
  match substr.data with
  | [] => s.data.length + 1
  | [c] => s.data.count c
  | sub => countLoop sub s.data.length s.data

/-- The Go function `strings.explode(s, n)`: split `s` into its characters, at
most `n` pieces (`n < 0`: no limit), the last piece holding the rest. -/
def explode (s : String) (n : Int) : List String :=
  let l := s.data.length
  let n := if n < 0 ∨ n > l then l else n.toNat
  if n = 0 then []
  else ((s.data.take (n - 1)).map fun c => String.mk [c]) ++ [String.mk (s.data.drop (n - 1))]

/-- The loop of `strings.genSplit`: `for i < n` with `n` rounds left, cutting at
each instance of `sep` and keeping `sepSave` characters of it. -/
def genSplitLoop (sep : List Char) (sepSave : Nat) : Nat → List Char → List String
  | 0, s => [String.mk s]
  | n + 1, s =>
    match indexOf sep s with
    | none => [String.mk s]
    | some m => String.mk (s.take (m + sepSave)) :: genSplitLoop sep sepSave n (s.drop (m + sep.length))

/-- The Go function `strings.genSplit(s, sep, sepSave, n)`. -/
def genSplit (s sep : String) (sepSave : Nat) (n : Int) : List String :=
  if n = 0 then []
  else if sep = "" then explode s n
  else
    let n : Nat := if n < 0 then Count s sep + 1 else n.toNat
    let n : Nat := if n > s.data.length + 1 then s.data.length + 1 else n
    genSplitLoop sep.data sepSave (n - 1) s.data

/-- The Go function `strings.Split(s, sep)`. -/
def Split (s sep : String) : List String :=
  genSplit s sep 0 (-1)

end strings

/-! ## Errors -/

/-- Go `error` values: a plain error with its text, or an error made by
`fmt.Errorf` with a `%w` verb, which wraps another error. -/
inductive error where
  | New (text : String)
  | Wrap (text : String) (err : error)
  deriving DecidableEq

/-- The method `Error()`: the text of an error. -/
def error.Error : error → String
  | .New text => text
  | .Wrap text err => text ++ err.Error

/-- The method `Unwrap()`: the wrapped error, if there is one. -/
def error.Unwrap : error → Option error
  | .New _ => none
  | .Wrap _ err => some err

/-! ## Configuration -/

/-- The struct `tunnelConf`. -/
structure tunnelConf where
  network : String
  localAddr : String
  remoteAddr : String
  deriving DecidableEq

/-- The zero value `tunnelConf{}`. -/
def tunnelConf.zero : tunnelConf :=
  { network := "", localAddr := "", remoteAddr := "" }

/-- The function `parseConfigString`: the pair of Go results. -/
def parseConfigString (str : String) : tunnelConf × Option error :=
  let split := strings.Split str ">"
  if h : split.length ≠ 2 then
    (tunnelConf.zero,
      some (error.New ("invalid tunnel config: " ++ str ++
        " (expected format: 0.0.0.0:9090>postgres:5432)")))
  else
    ({ network := "tcp", localAddr := split[0], remoteAddr := split[1] }, none)

/-- The process environment: the `key=value` entries of `os.Environ`. -/
abbrev Environ := List (String × String)

/-- The call `os.LookupEnv(key)`: `none` when the variable is not set. -/
def LookupEnv (env : Environ) (key : String) : Option String :=
  env.lookup key

/-- The call `fmt.Sprintf("TUNNEL_%d", i)`. -/
def tunnelKey (i : Nat) : String :=
  "TUNNEL_" ++ toString i

/-- The loop of `loadConfig`, from counter value `i` with `tunnelConfigs`
collected so far.  The first argument bounds the number of rounds. -/
def loadConfigLoop (env : Environ) : Nat → Nat → List tunnelConf → List tunnelConf
  | 0, _, tunnelConfigs => tunnelConfigs
  | rounds + 1, i, tunnelConfigs =>
    match LookupEnv env (tunnelKey i) with
    | none => tunnelConfigs
    | some val =>
      match parseConfigString val with
      | (_, some _) => loadConfigLoop env rounds (i + 1) tunnelConfigs
      | (conf, none) => loadConfigLoop env rounds (i + 1) (tunnelConfigs ++ [conf])

/-- The function `loadConfig`.  The loop ends at the first unset `TUNNEL_i`; the
environment has `env.length` entries, so this happens within `env.length + 1`
rounds (`loadConfigLoop_stable`). -/
def loadConfig (env : Environ) : List tunnelConf :=
  loadConfigLoop env (env.length + 1) 1 []

/-- The configuration that `parseConfigString` returns for `val`, when it
returns a nil error. -/
def parsedConf (val : String) : Option tunnelConf :=
  match parseConfigString val with
  | (conf, none) => some conf
  | (_, some _) => none

/-- The successfully parsed values of `TUNNEL_1` .. `TUNNEL_n`, in increasing
index order: the list that the specification asks of `loadConfig`. -/
def parsedTunnels (env : Environ) (n : Nat) : List tunnelConf :=
  (List.range' 1 n).filterMap fun i => (LookupEnv env (tunnelKey i)).bind parsedConf

/-- An environment with a malformed entry between well-formed ones and a gap
at `TUNNEL_4`. -/
def sampleEnviron : Environ :=
  [("TUNNEL_1", "0.0.0.0:9090>postgres:5432"), ("TUNNEL_2", "postgres:5432"),
   ("TUNNEL_3", ":9091>redis:6379"), ("TUNNEL_5", ":9092>kafka:9092")]

/-- An environment with two well-formed tunnel configurations. -/
def twoTunnels : Environ :=
  [("TUNNEL_1", ":9090>postgres:5432"), ("TUNNEL_2", ":9091>redis:6379")]

/-! ## Connections, contexts and the error group -/

/-- A connection handle (`net.Conn`). -/
structure Conn where
  id : Nat
  deriving DecidableEq

/-- The struct `tunnel`: an accepted connection and the configuration of the
listener that accepted it. -/
structure tunnel where
  upstream : Conn
  conf : tunnelConf
  deriving DecidableEq

/-- Values of `context.Context`: the background context and contexts derived
with a cancel function; `id` names the cancel function. -/
inductive Context where
  | Background
  | WithCancel (parent : Context) (id : Nat)
  deriving DecidableEq

/-- Whether the channel `ctx.Done()` is closed once the cancel functions named
in `cancelled` have been called.  `context.Background()` is never done. -/
def Context.Done : Context → List Nat → Bool
  | .Background, _ => false
  | .WithCancel parent id, cancelled => cancelled.contains id || parent.Done cancelled

/-- The error of `Accept` on a listener that has been closed (`net.ErrClosed`). -/
def ErrClosed : error :=
  error.New "use of closed network connection"

/-- What the program does to the outside world. -/
inductive Effect where
  | GoProcessIncomingConnections
  | GoListen (conf : tunnelConf)
  | Fatal (msg : String) (err : Option error)
  | Listen (network address : String)
  | CloseListener (address : String)
  | Send (tun : tunnel)
  | Dial (network address : String)
  | Close (c : Conn)
  | Copy (dst src : Conn)
  deriving DecidableEq

/-- Whether an effect is a call of `net.Dial`. -/
def Effect.isDial : Effect → Bool
  | .Dial _ _ => true
  | _ => false

/-- Whether an effect starts a copy goroutine. -/
def Effect.isCopy : Effect → Bool
  | .Copy _ _ => true
  | _ => false

/-- Whether an effect starts a call of `listen` or is its call of `net.Listen`. -/
def Effect.isListen : Effect → Bool
  | .GoListen _ => true
  | .Listen _ _ => true
  | _ => false

namespace errgroup

/-- The state of an `errgroup.Group`: the counter of its wait group, the first
error (`g.err`), and whether `g.cancel` has been called, which makes the
context derived by `errgroup.WithContext` done. -/
structure Group where
  running : Nat
  err : Option error
  cancelled : Bool
  deriving DecidableEq

/-- The group returned by `errgroup.WithContext`. -/
def WithContext : Group :=
  { running := 0, err := none, cancelled := false }

/-- The method `Go`: one more function runs in the group. -/
def Group.Go (g : Group) : Group :=
  { g with running := g.running + 1 }

/-- A function passed to `Go` returns `err`: the counter goes down and the first
non-nil error is stored and cancels the derived context (`errOnce`). -/
def Group.done (g : Group) (err : Option error) : Group :=
  match err, g.err with
  | some e, none => { running := g.running - 1, err := some e, cancelled := true }
  | _, _ => { g with running := g.running - 1 }

/-- The method `Wait`: blocks (`none`) until every function has returned, then
returns the first error. -/
def Group.Wait (g : Group) : Option (Option error) :=
  if g.running = 0 then some g.err else none

end errgroup

/-! ## `listen` -/

/-- Where a call of `listen` stands: inside `net.Listen`, inside `ls.Accept()`,
or returned. -/
inductive ListenPhase where
  | binding
  | accepting
  | returned (err : Option error)
  deriving DecidableEq

/-- The state of one call of `listen`. -/
structure ListenState where
  phase : ListenPhase
  ctxDone : Bool
  socketOpen : Bool
  effects : List Effect
  deriving DecidableEq

/-- What can happen to a call of `listen`: `net.Listen` returns, a cancel
function is called, `Accept` returns a connection, or `Accept` fails inside the
network stack. -/
inductive ListenEvent where
  | listenResult (err : Option error)
  | cancelled (id : Nat)
  | connection (upstream : Conn)
  | acceptFailed (err : error)
  deriving DecidableEq

/-- The call `listen(ctx, conf, connCh)` has started and is inside `net.Listen`. -/
def listenStart (conf : tunnelConf) : ListenState :=
  { phase := .binding, ctxDone := false, socketOpen := false,
    effects := [Effect.Listen conf.network conf.localAddr] }

/-- The return of `listen` from its accept loop with the error `err` of
`Accept`; the deferred function closes the listener. -/
def listenAcceptReturn (conf : tunnelConf) (st : ListenState) (err : error) : ListenState :=
  { st with
    phase := .returned (some (error.Wrap "failed to accept incoming connection: " err)),
    socketOpen := false,
    effects := st.effects ++ [Effect.CloseListener conf.localAddr] }

/-- The goroutine of `listen` that waits for `ctx.Done()` closes the listener;
the blocked `Accept` then fails with `ErrClosed` and `listen` returns. -/
def listenCtxDone (conf : tunnelConf) (st : ListenState) : ListenState :=
  listenAcceptReturn conf
    { st with ctxDone := true, socketOpen := false,
              effects := st.effects ++ [Effect.CloseListener conf.localAddr] }
    ErrClosed

/-- One step of `listen(ctx, conf, connCh)`.  The send `connCh <- tunnel{...}`
is an effect of the step that accepts the connection: `processIncomingConnections`
receives from the channel without any condition, so the send completes. -/
def listenStep (ctx : Context) (conf : tunnelConf) (st : ListenState) : ListenEvent → ListenState
  | .cancelled id =>
    if ctx.Done [id] then
      match st.phase with
      | .accepting => listenCtxDone conf st
      | _ => { st with ctxDone := true }
    else st
  | .listenResult (some err) =>
    match st.phase with
    | .binding =>
      { st with phase := .returned (some (error.Wrap "failed to open local listener: " err)) }
    | _ => st
  | .listenResult none =>
    match st.phase with
    | .binding =>
      if st.ctxDone then listenCtxDone conf st
      else { st with phase := .accepting, socketOpen := true }
    | _ => st
  | .connection upstream =>
    match st.phase with
    | .accepting =>
      { st with effects := st.effects ++ [Effect.Send { upstream := upstream, conf := conf }] }
    | _ => st
  | .acceptFailed err =>
    match st.phase with
    | .accepting => listenAcceptReturn conf st err
    | _ => st

/-- The function `listen`, run against a script of events. -/
def listen (ctx : Context) (conf : tunnelConf) (script : List ListenEvent) : ListenState :=
  script.foldl (listenStep ctx conf) (listenStart conf)

/-! ## `runTunnel` -/

/-- The two copy goroutines of `runTunnel`: `io.Copy(downstream, upstream)` and
`io.Copy(upstream, downstream)`. -/
inductive CopyTask where
  | toDownstream
  | toUpstream
  deriving DecidableEq

/-- The other copy goroutine. -/
def CopyTask.other : CopyTask → CopyTask
  | .toDownstream => .toUpstream
  | .toUpstream => .toDownstream

/-- Where a call of `runTunnel` stands: inside `net.Dial`, inside `eg.Wait()`
with the tunnel open, or returned. -/
inductive TunnelPhase where
  | dialing
  | waiting
  | returned (err : Option error)
  deriving DecidableEq

/-- The state of one call of `runTunnel`: `downstream` is the dialed connection,
`copying` lists the copy goroutines that have not returned yet. -/
structure TunnelState where
  phase : TunnelPhase
  downstream : Option Conn
  copying : List CopyTask
  eg : errgroup.Group
  effects : List Effect
  deriving DecidableEq

/-- What can happen to a call of `runTunnel`: `net.Dial` returns, or one of the
two `io.Copy` calls returns. -/
inductive TunnelEvent where
  | dialResult (r : Except error Conn)
  | copyResult (task : CopyTask) (err : Option error)

/-- The call `runTunnel(ctx, tun)` has started and is inside `net.Dial`. -/
def runTunnelStart (tun : tunnel) : TunnelState :=
  { phase := .dialing, downstream := none, copying := [], eg := errgroup.WithContext,
    effects := [Effect.Dial tun.conf.network tun.conf.remoteAddr] }

/-- One step of `runTunnel(ctx, tun)`. -/
def runTunnelStep (tun : tunnel) (st : TunnelState) : TunnelEvent → TunnelState
  | .dialResult (.error err) =>
    match st.phase with
    | .dialing =>
      { st with
        phase := .returned (some (error.Wrap "failed to open downstream connection: " err)),
        effects := st.effects ++ [Effect.Close tun.upstream] }
    | _ => st
  | .dialResult (.ok downstream) =>
    match st.phase with
    | .dialing =>
      { st with
        phase := .waiting,
        downstream := some downstream,
        copying := [.toDownstream, .toUpstream],
        eg := st.eg.Go.Go,
        effects := st.effects ++
          [Effect.Copy downstream tun.upstream, Effect.Copy tun.upstream downstream] }
    | _ => st
  | .copyResult task err =>
    match st.phase, st.downstream with
    | .waiting, some downstream =>
      if task ∈ st.copying then
        let eg := st.eg.done err
        match eg.Wait with
        | none => { st with copying := st.copying.erase task, eg := eg }
        | some r =>
          { st with
            phase := .returned (r.map (error.Wrap "tunnel error occurred: ")),
            copying := st.copying.erase task,
            eg := eg,
            effects := st.effects ++ [Effect.Close tun.upstream, Effect.Close downstream] }
      else st
    | _, _ => st

/-- The function `runTunnel`, run against a script of events. -/
def runTunnel (_ctx : Context) (tun : tunnel) (script : List TunnelEvent) : TunnelState :=
  script.foldl (runTunnelStep tun) (runTunnelStart tun)

/-- Whether `runTunnel` has closed the connection `c`. -/
def TunnelState.closed (st : TunnelState) (c : Conn) : Bool :=
  decide (Effect.Close c ∈ st.effects)

/-! ## `main` -/

/-- An event that does not make a call of `listen` fail by itself: it is
neither a failure of `net.Listen` nor a failure of `Accept` inside the network
stack. -/
def ListenEvent.benign : ListenEvent → Bool
  | .listenResult (some _) => false
  | .acceptFailed _ => false
  | _ => true

/-- How the process stands: `main` is still running (blocked in `eg.Wait()`),
the process was ended by `lgr.Fatal`, or `main` returned. -/
inductive ProcessStatus where
  | running
  | fatal (msg : String) (err : Option error)
  | returned
  deriving DecidableEq

/-- The state of the process: what the main goroutine has done, the calls of
`listen` started through `eg.Go`, in the order of `tunnelConfigs`, and the
error group. -/
structure MainState where
  status : ProcessStatus
  effects : List Effect
  listeners : List (tunnelConf × ListenState)
  eg : errgroup.Group
  deriving DecidableEq

/-- The name of the cancel function of the context derived by
`errgroup.WithContext(ctx)` in `main`. -/
def egCancel : Nat := 0

/-- An event reaches the `i`-th call of `listen`; when the call returns, the
error group takes its result. -/
def listenerStep (ctx : Context) (st : MainState) (i : Nat) (ev : ListenEvent) : MainState :=
  match st.listeners[i]? with
  | none => st
  | some (conf, l) =>
    let l' := listenStep ctx conf l ev
    let st := { st with listeners := st.listeners.set i (conf, l') }
    match l.phase, l'.phase with
    | .returned _, _ => st
    | _, .returned err => { st with eg := st.eg.done err }
    | _, _ => st

/-- One step of the listeners started by `main`, each running
`listen(ctx, conf, incomingConn)`: the event `e.2` reaches the `e.1`-th of them;
if this makes the error group call its cancel function, every listener sees the
event `cancelled egCancel`. -/
def mainStep (ctx : Context) (st : MainState) (e : Nat × ListenEvent) : MainState :=
  let st' := listenerStep ctx st e.1 e.2
  if st'.eg.cancelled && !st.eg.cancelled then
    (List.range st'.listeners.length).foldl
      (fun s j => listenerStep ctx s j (.cancelled egCancel)) st'
  else st'

/-- The lines `eg, _ := errgroup.WithContext(ctx)` and
`for _, conf := range tunnelConfigs { eg.Go(...) }` of `main`: one call of
`listen` per configuration has been started. -/
def startListeners (tunnelConfigs : List tunnelConf) : MainState :=
  { status := .running,
    effects := Effect.GoProcessIncomingConnections :: tunnelConfigs.map Effect.GoListen,
    listeners := tunnelConfigs.map fun conf => (conf, listenStart conf),
    eg := tunnelConfigs.foldl (fun g _ => g.Go) errgroup.WithContext }

/-- The function `main`, run in the environment `env` against a script of
events, each addressed to one listener by its position in `tunnelConfigs`.
The listeners are given `ctx`, the background context; the context derived by
`errgroup.WithContext(ctx)` is dropped. -/
def main (env : Environ) (script : List (Nat × ListenEvent)) : MainState :=
  let ctx := Context.Background
  let tunnelConfigs := loadConfig env
  if tunnelConfigs.length = 0 then
    { status := .fatal "no tunnel configurations are set" none,
      effects := [Effect.GoProcessIncomingConnections,
        Effect.Fatal "no tunnel configurations are set" none],
      listeners := [],
      eg := errgroup.WithContext }
  else
    let st := script.foldl (mainStep ctx) (startListeners tunnelConfigs)
    match st.eg.Wait with
    | none => st
    | some none => { st with status := .returned }
    | some (some err) =>
      { st with
        status := .fatal "failed to listen:" (some err),
        effects := st.effects ++ [Effect.Fatal "failed to listen:" (some err)] }

/-- Every effect of the process: those of the main goroutine and those of the
calls of `listen` it started. -/
def MainState.trace (st : MainState) : List Effect :=
  st.effects ++ st.listeners.flatMap fun l => l.2.effects

/-! ## Theorems -/

/-! ## Splitting at a single character -/

theorem exists_first_occurrence (c : Char) :
    ∀ s : List Char, c ∈ s → ∃ l r, s = l ++ c :: r ∧ c ∉ l := by
  intro s
  induction s with
  | nil => intro h; simp at h
  | cons x xs ih =>
    intro h
    by_cases hx : c = x
    · exact ⟨[], xs, by simp [hx], by simp⟩
    · have hmem : c ∈ xs := by
        rcases List.mem_cons.mp h with h | h
        · exact absurd h hx
        · exact h
      obtain ⟨l, r, hs, hl⟩ := ih hmem
      refine ⟨x :: l, r, by simp [hs], ?_⟩
      simp [hx, hl]

theorem indexOf_singleton_none (c : Char) :
    ∀ s : List Char, c ∉ s → strings.indexOf [c] s = none := by
  intro s
  induction s with
  | nil => intro _; simp [strings.indexOf]
  | cons x xs ih =>
    intro h
    have hx : c ≠ x := fun e => h (by simp [e])
    have hxs : c ∉ xs := fun e => h (by simp [e])
    simp [strings.indexOf, List.isPrefixOf, hx, ih hxs]

theorem indexOf_singleton_first (c : Char) (r : List Char) :
    ∀ l : List Char, c ∉ l → strings.indexOf [c] (l ++ c :: r) = some l.length := by
  intro l
  induction l with
  | nil => intro _; simp [strings.indexOf, List.isPrefixOf]
  | cons x xs ih =>
    intro h
    have hx : c ≠ x := fun e => h (by simp [e])
    have hxs : c ∉ xs := fun e => h (by simp [e])
    simp [strings.indexOf, List.isPrefixOf, hx, ih hxs]

theorem genSplitLoop_singleton_none (c : Char) (n : Nat) (s : List Char) (h : c ∉ s) :
    strings.genSplitLoop [c] 0 n s = [String.mk s] := by
  cases n with
  | zero => rfl
  | succ n => simp [strings.genSplitLoop, indexOf_singleton_none c s h]

theorem genSplitLoop_singleton_first (c : Char) (n : Nat) (l r : List Char) (h : c ∉ l) :
    strings.genSplitLoop [c] 0 (n + 1) (l ++ c :: r)
      = String.mk l :: strings.genSplitLoop [c] 0 n r := by
  simp [strings.genSplitLoop, indexOf_singleton_first c r l h]

theorem genSplitLoop_singleton_length (c : Char) :
    ∀ (n : Nat) (s : List Char),
      (strings.genSplitLoop [c] 0 n s).length = min n (s.count c) + 1 := by
  intro n
  induction n with
  | zero => intro s; simp [strings.genSplitLoop]
  | succ n ih =>
    intro s
    by_cases hc : c ∈ s
    · obtain ⟨l, r, rfl, hl⟩ := exists_first_occurrence c s hc
      rw [genSplitLoop_singleton_first c n l r hl, List.length_cons, ih r]
      have h0 : l.count c = 0 := List.count_eq_zero.mpr hl
      simp [List.count_append, h0]
      omega
    · rw [genSplitLoop_singleton_none c (n + 1) s hc]
      have h0 : s.count c = 0 := List.count_eq_zero.mpr hc
      simp [h0]

theorem Split_gt (s : String) :
    strings.Split s ">" = strings.genSplitLoop ['>'] 0 (s.data.count '>') s.data := by
  have hle : s.data.count '>' ≤ s.data.length := List.count_le_length _ _
  have hsep : (">" : String) ≠ "" := by decide
  have hdata : (">" : String).data = ['>'] := rfl
  simp only [strings.Split, strings.genSplit, strings.Count, hdata]
  simp [hsep]
  have hlen : s.length = s.data.length := rfl
  rw [if_neg (by omega)]
  simp

theorem Split_gt_length (s : String) :
    (strings.Split s ">").length = s.data.count '>' + 1 := by
  rw [Split_gt, genSplitLoop_singleton_length]
  simp

theorem Split_gt_pair (L R : String) (hL : '>' ∉ L.data) (hR : '>' ∉ R.data) :
    strings.Split (L ++ ">" ++ R) ">" = [L, R] := by
  have hdata : (L ++ ">" ++ R).data = L.data ++ '>' :: R.data := by
    simp [String.data_append]
  have hcount : (L.data ++ '>' :: R.data).count '>' = 1 := by
    simp [List.count_append, List.count_eq_zero.mpr hL, List.count_eq_zero.mpr hR]
  rw [Split_gt, hdata, hcount, genSplitLoop_singleton_first '>' 0 _ _ hL]
  simp [strings.genSplitLoop]

theorem parseConfigString_of_pair (str a b : String) (h : strings.Split str ">" = [a, b]) :
    parseConfigString str = ({ network := "tcp", localAddr := a, remoteAddr := b }, none) := by
  simp [parseConfigString, h]

theorem parseConfigString_of_length_ne (str : String) (h : (strings.Split str ">").length ≠ 2) :
    parseConfigString str = (tunnelConf.zero,
      some (error.New ("invalid tunnel config: " ++ str ++
        " (expected format: 0.0.0.0:9090>postgres:5432)"))) := by
  simp [parseConfigString, h]

theorem parseConfigString_of_length_eq (str : String) (h : (strings.Split str ">").length = 2) :
    (parseConfigString str).2 = none := by
  simp [parseConfigString, h]

/-- C1: for all strings `L` and `R` without the character `>` (empty ones
included), `parseConfigString (L ++ ">" ++ R)` succeeds with a nil error and
returns exactly `tunnelConf{network: "tcp", localAddr: L, remoteAddr: R}`. -/
theorem parseConfigString_wellformed (L R : String)
    (hL : '>' ∉ L.data) (hR : '>' ∉ R.data) :
    parseConfigString (L ++ ">" ++ R)
      = ({ network := "tcp", localAddr := L, remoteAddr := R }, none) :=
  parseConfigString_of_pair _ L R (Split_gt_pair L R hL hR)

theorem parseConfigString_wellformed_witness :
    '>' ∉ ("0.0.0.0:9090" : String).data ∧ '>' ∉ ("" : String).data ∧
    parseConfigString ("0.0.0.0:9090" ++ ">" ++ "")
      = ({ network := "tcp", localAddr := "0.0.0.0:9090", remoteAddr := "" }, none) :=
  ⟨by decide, by decide, parseConfigString_wellformed "0.0.0.0:9090" "" (by decide) (by decide)⟩

/-- C2: `parseConfigString s` returns a non-nil error exactly when `s` does not
contain exactly one character `>`, and whenever it fails the returned
`tunnelConf` is the zero value, all three fields empty. -/
theorem parseConfigString_error_iff (s : String) :
    ((parseConfigString s).2 ≠ none ↔ s.data.count '>' ≠ 1) ∧
    ((parseConfigString s).2 ≠ none →
      (parseConfigString s).1 = { network := "", localAddr := "", remoteAddr := "" }) := by
  by_cases h : s.data.count '>' = 1
  · have hlen : (strings.Split s ">").length = 2 := by rw [Split_gt_length, h]
    simp [parseConfigString_of_length_eq s hlen, h]
  · have hlen : (strings.Split s ">").length ≠ 2 := by
      rw [Split_gt_length]; omega
    simp [parseConfigString_of_length_ne s hlen, h, tunnelConf.zero]

theorem parseConfigString_error_iff_witness :
    (parseConfigString "a>b>c").2 ≠ none ∧
    (parseConfigString "a>b>c").1 = { network := "", localAddr := "", remoteAddr := "" } :=
  ⟨(parseConfigString_error_iff "a>b>c").1.mpr (by decide),
   (parseConfigString_error_iff "a>b>c").2 ((parseConfigString_error_iff "a>b>c").1.mpr (by decide))⟩


/-! ## The keys `TUNNEL_i` are pairwise different -/

theorem digitChar_value (k : Nat) (h : k < 10) : (Nat.digitChar k).toNat - 48 = k := by
  interval_cases k <;> rfl

theorem toDigitsCore_decode :
    ∀ (fuel n : Nat) (ds : List Char), n < fuel →
      List.foldl (fun acc c => acc * 10 + (Char.toNat c - 48)) 0 (Nat.toDigitsCore 10 fuel n ds)
        = List.foldl (fun acc c => acc * 10 + (Char.toNat c - 48)) n ds := by
  intro fuel
  induction fuel with
  | zero => intro n ds h; omega
  | succ fuel ih =>
    intro n ds h
    have hd : (Nat.digitChar (n % 10)).toNat - 48 = n % 10 :=
      digitChar_value _ (Nat.mod_lt _ (by decide))
    by_cases h0 : n / 10 = 0
    · have hn : n % 10 = n := by omega
      simp only [Nat.toDigitsCore, h0, if_true, List.foldl_cons, Nat.zero_mul, Nat.zero_add]
      rw [hd, hn]
    · have hlt : n / 10 < fuel := by omega
      have hn : n / 10 * 10 + n % 10 = n := by omega
      simp only [Nat.toDigitsCore, h0, if_false]
      rw [ih (n / 10) _ hlt]
      simp [hd, hn]

theorem repr_decode (n : Nat) :
    List.foldl (fun acc c => acc * 10 + (Char.toNat c - 48)) 0 (Nat.repr n).data = n := by
  have h := toDigitsCore_decode (n + 1) n [] (Nat.lt_succ_self n)
  simpa [Nat.repr, Nat.toDigits, List.asString] using h

theorem tunnelKey_injective : Function.Injective tunnelKey := by
  intro a b h
  have hdata : (tunnelKey a).data = (tunnelKey b).data := congrArg String.data h
  simp only [tunnelKey, String.data_append] at hdata
  have hrepr : (Nat.repr a).data = (Nat.repr b).data := List.append_cancel_left hdata
  have ha := repr_decode a
  rw [hrepr, repr_decode b] at ha
  exact ha.symm

theorem mem_keys_of_lookup (key : String) :
    ∀ env : Environ, (LookupEnv env key).isSome → key ∈ env.map Prod.fst := by
  intro env
  induction env with
  | nil => intro h; simp [LookupEnv, List.lookup] at h
  | cons kv rest ih =>
    intro h
    obtain ⟨k, v⟩ := kv
    by_cases hk : key = k
    · simp [hk]
    · have hne : (key == k) = false := by simpa using hk
      have hrest : (LookupEnv rest key).isSome := by
        simpa [LookupEnv, List.lookup, hne] using h
      simp [ih hrest]

theorem set_keys_le_length (env : Environ) (n : Nat)
    (hset : ∀ i, 1 ≤ i → i ≤ n → (LookupEnv env (tunnelKey i)).isSome) :
    n ≤ env.length := by
  have hnodup : ((List.range' 1 n).map tunnelKey).Nodup :=
    (List.nodup_range' 1 n).map tunnelKey_injective
  have hsub : (List.range' 1 n).map tunnelKey ⊆ env.map Prod.fst := by
    intro key hkey
    obtain ⟨i, hi, rfl⟩ := List.mem_map.mp hkey
    have hi' := List.mem_range'_1.mp hi
    exact mem_keys_of_lookup _ env (hset i hi'.1 (by omega))
  have hlen := (List.subperm_of_subset hnodup hsub).length_le
  simpa using hlen

/-! ## The loop of `loadConfig` -/

theorem loadConfigLoop_eq (env : Environ) :
    ∀ (m rounds i : Nat) (acc : List tunnelConf), m < rounds →
      (∀ j, i ≤ j → j < i + m → (LookupEnv env (tunnelKey j)).isSome) →
      LookupEnv env (tunnelKey (i + m)) = none →
      loadConfigLoop env rounds i acc
        = acc ++ (List.range' i m).filterMap
            fun j => (LookupEnv env (tunnelKey j)).bind parsedConf := by
  intro m
  induction m with
  | zero =>
    intro rounds i acc hr _ hunset
    obtain ⟨r, rfl⟩ : ∃ r, rounds = r + 1 := ⟨rounds - 1, by omega⟩
    simp only [Nat.add_zero] at hunset
    simp [loadConfigLoop, hunset]
  | succ m ih =>
    intro rounds i acc hr hset hunset
    obtain ⟨r, rfl⟩ : ∃ r, rounds = r + 1 := ⟨rounds - 1, by omega⟩
    obtain ⟨val, hval⟩ := Option.isSome_iff_exists.mp (hset i (Nat.le_refl i) (by omega))
    have hset' : ∀ j, i + 1 ≤ j → j < i + 1 + m → (LookupEnv env (tunnelKey j)).isSome :=
      fun j h1 h2 => hset j (by omega) (by omega)
    have hunset' : LookupEnv env (tunnelKey (i + 1 + m)) = none := by
      have e : i + 1 + m = i + (m + 1) := by omega
      rw [e]; exact hunset
    have hrec := fun acc' => ih r (i + 1) acc' (by omega) hset' hunset'
    rw [List.range'_succ, List.filterMap_cons]
    rcases hp : parseConfigString val with ⟨conf, _ | err⟩
    · have hpc : parsedConf val = some conf := by simp [parsedConf, hp]
      simp [loadConfigLoop, hval, hp, hpc, hrec]
    · have hpc : parsedConf val = none := by simp [parsedConf, hp]
      simp [loadConfigLoop, hval, hp, hpc, hrec]

theorem loadConfig_eq_parsedTunnels (env : Environ) (n : Nat)
    (hset : ∀ i, 1 ≤ i → i ≤ n → (LookupEnv env (tunnelKey i)).isSome)
    (hunset : LookupEnv env (tunnelKey (n + 1)) = none) :
    loadConfig env = parsedTunnels env n := by
  have hn : n ≤ env.length := set_keys_le_length env n hset
  have h := loadConfigLoop_eq env n (env.length + 1) 1 [] (by omega)
    (fun j h1 h2 => hset j h1 (by omega)) (by rw [Nat.add_comm 1 n]; exact hunset)
  simpa [loadConfig, parsedTunnels] using h

/-- The bound on the rounds in `loadConfig` is never the reason why the loop
ends: with any larger bound the loop returns the same list. -/
theorem loadConfigLoop_stable (env : Environ) (rounds : Nat) (h : env.length < rounds) :
    loadConfigLoop env rounds 1 [] = loadConfig env := by
  have hex : ∃ k, LookupEnv env (tunnelKey (k + 1)) = none := by
    by_contra hall
    have hall' : ∀ k, (LookupEnv env (tunnelKey (k + 1))).isSome := by
      intro k
      by_contra hk
      exact hall ⟨k, by simpa using hk⟩
    have := set_keys_le_length env (env.length + 1)
      (fun i h1 _ => by have := hall' (i - 1); rwa [Nat.sub_add_cancel h1] at this)
    omega
  classical
  let n := Nat.find hex
  have hunset : LookupEnv env (tunnelKey (n + 1)) = none := Nat.find_spec hex
  have hset : ∀ i, 1 ≤ i → i ≤ n → (LookupEnv env (tunnelKey i)).isSome := by
    intro i h1 h2
    have hmin := Nat.find_min hex (show i - 1 < Nat.find hex by omega)
    rw [Nat.sub_add_cancel h1] at hmin
    cases hv : LookupEnv env (tunnelKey i) with
    | none => exact absurd hv hmin
    | some v => rfl
  have hn : n ≤ env.length := set_keys_le_length env n hset
  have h1 := loadConfigLoop_eq env n rounds 1 [] (by omega)
    (fun j h1 h2 => hset j h1 (by omega)) (by rw [Nat.add_comm 1 n]; exact hunset)
  have h2 := loadConfigLoop_eq env n (env.length + 1) 1 [] (by omega)
    (fun j h1 h2 => hset j h1 (by omega)) (by rw [Nat.add_comm 1 n]; exact hunset)
  rw [loadConfig, h1, h2]

theorem parsedTunnels_congr (env₁ env₂ : Environ) (n : Nat)
    (hagree : ∀ i, 1 ≤ i → i ≤ n → LookupEnv env₁ (tunnelKey i) = LookupEnv env₂ (tunnelKey i)) :
    parsedTunnels env₁ n = parsedTunnels env₂ n := by
  unfold parsedTunnels
  apply List.filterMap_congr
  intro i hi
  have hi' := List.mem_range'_1.mp hi
  rw [hagree i hi'.1 (by omega)]

theorem loadConfig_agree (env₁ env₂ : Environ) (k : Nat)
    (hagree : ∀ i, 1 ≤ i → i ≤ k → LookupEnv env₁ (tunnelKey i) = LookupEnv env₂ (tunnelKey i))
    (h₁ : LookupEnv env₁ (tunnelKey (k + 1)) = none)
    (h₂ : LookupEnv env₂ (tunnelKey (k + 1)) = none) :
    loadConfig env₁ = loadConfig env₂ := by
  classical
  have hex : ∃ m, LookupEnv env₁ (tunnelKey (m + 1)) = none := ⟨k, h₁⟩
  let n := Nat.find hex
  have hnk : n ≤ k := Nat.find_min' hex h₁
  have hunset₁ : LookupEnv env₁ (tunnelKey (n + 1)) = none := Nat.find_spec hex
  have hset₁ : ∀ i, 1 ≤ i → i ≤ n → (LookupEnv env₁ (tunnelKey i)).isSome := by
    intro i h1 h2
    have hmin := Nat.find_min hex (show i - 1 < Nat.find hex by omega)
    rw [Nat.sub_add_cancel h1] at hmin
    cases hv : LookupEnv env₁ (tunnelKey i) with
    | none => exact absurd hv hmin
    | some v => rfl
  have hunset₂ : LookupEnv env₂ (tunnelKey (n + 1)) = none := by
    by_cases hlt : n < k
    · rw [← hagree (n + 1) (by omega) (by omega)]; exact hunset₁
    · have e : n = k := by omega
      rw [e]; exact h₂
  have hset₂ : ∀ i, 1 ≤ i → i ≤ n → (LookupEnv env₂ (tunnelKey i)).isSome := by
    intro i h1 h2
    rw [← hagree i h1 (by omega)]; exact hset₁ i h1 h2
  rw [loadConfig_eq_parsedTunnels env₁ n hset₁ hunset₁,
    loadConfig_eq_parsedTunnels env₂ n hset₂ hunset₂]
  exact parsedTunnels_congr env₁ env₂ n (fun i h1 h2 => hagree i h1 (by omega))

theorem loadConfig_of_first_unset (env : Environ)
    (h : LookupEnv env (tunnelKey 1) = none) : loadConfig env = [] := by
  simp [loadConfig, loadConfigLoop, h]

/-- When `TUNNEL_1` .. `TUNNEL_n` are set and none of them parses, and
`TUNNEL_{n+1}` is unset, `loadConfig` resolves no configuration. -/
theorem loadConfig_nil_of_all_fail (env : Environ) (n : Nat)
    (hfail : ∀ i, 1 ≤ i → i ≤ n →
      ∃ val, LookupEnv env (tunnelKey i) = some val ∧ (parseConfigString val).2 ≠ none)
    (hunset : LookupEnv env (tunnelKey (n + 1)) = none) :
    loadConfig env = [] := by
  have hset : ∀ i, 1 ≤ i → i ≤ n → (LookupEnv env (tunnelKey i)).isSome := by
    intro i h1 h2
    obtain ⟨val, hval, _⟩ := hfail i h1 h2
    simp [hval]
  rw [loadConfig_eq_parsedTunnels env n hset hunset, parsedTunnels]
  apply List.filterMap_eq_nil_iff.mpr
  intro i hi
  have hi' := List.mem_range'_1.mp hi
  obtain ⟨val, hval, herr⟩ := hfail i hi'.1 (by omega)
  rcases hp : parseConfigString val with ⟨conf, _ | err⟩
  · rw [hp] at herr; exact absurd rfl herr
  · simp [hval, parsedConf, hp]

/-- C3: in an environment where `TUNNEL_1` .. `TUNNEL_n` are all set and
`TUNNEL_{n+1}` is unset, `loadConfig` returns exactly the successfully parsed
values of `TUNNEL_1` .. `TUNNEL_n` in increasing index order: an entry whose
parsing fails contributes nothing and does not stop the entries after it. -/
theorem loadConfig_skips_failed_entries (env : Environ) (n : Nat)
    (hset : ∀ i, 1 ≤ i → i ≤ n → (LookupEnv env (tunnelKey i)).isSome)
    (hunset : LookupEnv env (tunnelKey (n + 1)) = none) :
    loadConfig env
      = (List.range' 1 n).filterMap fun i => (LookupEnv env (tunnelKey i)).bind parsedConf :=
  loadConfig_eq_parsedTunnels env n hset hunset


theorem loadConfig_skips_failed_entries_witness :
    LookupEnv sampleEnviron (tunnelKey 4) = none ∧
    loadConfig sampleEnviron
      = [{ network := "tcp", localAddr := "0.0.0.0:9090", remoteAddr := "postgres:5432" },
         { network := "tcp", localAddr := ":9091", remoteAddr := "redis:6379" }] :=
  ⟨by decide,
   (loadConfig_skips_failed_entries sampleEnviron 3
      (by intro i h1 h2; interval_cases i <;> decide) (by decide)).trans (by decide)⟩

/-- C10: `loadConfig` stops scanning at the first unset index.  Two environments
that agree on `TUNNEL_1` .. `TUNNEL_k` and in both of which `TUNNEL_{k+1}` is
unset give the same list, whatever the variables behind hold; and when
`TUNNEL_1` is unset (`k = 0`) the list is empty. -/
theorem loadConfig_stops_at_first_unset (env₁ env₂ : Environ) (k : Nat)
    (hagree : ∀ i, 1 ≤ i → i ≤ k →
      LookupEnv env₁ (tunnelKey i) = LookupEnv env₂ (tunnelKey i))
    (h₁ : LookupEnv env₁ (tunnelKey (k + 1)) = none)
    (h₂ : LookupEnv env₂ (tunnelKey (k + 1)) = none) :
    loadConfig env₁ = loadConfig env₂ ∧ (k = 0 → loadConfig env₁ = []) :=
  ⟨loadConfig_agree env₁ env₂ k hagree h₁ h₂,
   fun hk => loadConfig_of_first_unset env₁ (by rw [hk] at h₁; exact h₁)⟩

theorem loadConfig_stops_at_first_unset_witness :
    LookupEnv [("TUNNEL_2", ":9090>postgres:5432")] (tunnelKey 1) = none ∧
    LookupEnv [("TUNNEL_2", ":9090>postgres:5432")] (tunnelKey 2)
      = some ":9090>postgres:5432" ∧
    LookupEnv [] (tunnelKey 1) = none ∧
    loadConfig [("TUNNEL_2", ":9090>postgres:5432")] = loadConfig [] ∧
    loadConfig [("TUNNEL_2", ":9090>postgres:5432")] = [] :=
  ⟨by decide, by decide, by decide,
   (loadConfig_stops_at_first_unset [("TUNNEL_2", ":9090>postgres:5432")] [] 0
      (by intro i h1 h2; omega) (by decide) (by decide)).1,
   (loadConfig_stops_at_first_unset [("TUNNEL_2", ":9090>postgres:5432")] [] 0
      (by intro i h1 h2; omega) (by decide) (by decide)).2 rfl⟩

/-! ## `main` without configurations -/

/-- C4: when `loadConfig` resolves no tunnel configuration, `main` ends the
process with a fatal error before any call of `listen`: no listener is started
and no `net.Listen` is performed, whatever happens on the network. -/
theorem main_fatal_without_configs (env : Environ) (script : List (Nat × ListenEvent))
    (h : loadConfig env = []) :
    (main env script).status = .fatal "no tunnel configurations are set" none ∧
    (main env script).listeners = [] ∧
    (∀ e ∈ (main env script).trace, e.isListen = false) ∧
    (main env script).trace
      = [Effect.GoProcessIncomingConnections,
         Effect.Fatal "no tunnel configurations are set" none] := by
  simp [main, h, MainState.trace, Effect.isListen]

theorem main_fatal_without_configs_witness :
    loadConfig [("TUNNEL_1", "postgres:5432"), ("TUNNEL_3", ":9090>postgres:5432")] = [] ∧
    (main [("TUNNEL_1", "postgres:5432"), ("TUNNEL_3", ":9090>postgres:5432")]
        [(0, .listenResult none), (0, .connection ⟨1⟩)]).status
      = .fatal "no tunnel configurations are set" none ∧
    (main [("TUNNEL_1", "postgres:5432"), ("TUNNEL_3", ":9090>postgres:5432")]
        [(0, .listenResult none), (0, .connection ⟨1⟩)]).listeners = [] :=
  ⟨by decide,
   (main_fatal_without_configs _ [(0, .listenResult none), (0, .connection ⟨1⟩)]
      (by decide)).1,
   (main_fatal_without_configs _ [(0, .listenResult none), (0, .connection ⟨1⟩)]
      (by decide)).2.1⟩

/-! ## `runTunnel` -/

theorem runTunnelStep_returned (tun : tunnel) (st : TunnelState) (ev : TunnelEvent)
    (err : Option error) (h : st.phase = .returned err) : runTunnelStep tun st ev = st := by
  rcases ev with (_ | _) | _ <;> simp [runTunnelStep, h]

theorem runTunnel_foldl_returned (tun : tunnel) (err : Option error) :
    ∀ (script : List TunnelEvent) (st : TunnelState), st.phase = .returned err →
      script.foldl (runTunnelStep tun) st = st := by
  intro script
  induction script with
  | nil => intro st _; rfl
  | cons ev rest ih =>
    intro st h
    rw [List.foldl_cons, runTunnelStep_returned tun st ev err h]
    exact ih st h

/-- C5: when the dial of `conf.remoteAddr` over `conf.network` fails,
`runTunnel` closes the accepted upstream connection and returns a non-nil error
that wraps the dial error; it has dialed exactly once, has started no copy
task, and no downstream connection exists. -/
theorem runTunnel_dial_failure (ctx : Context) (tun : tunnel) (err : error)
    (rest : List TunnelEvent) :
    (runTunnel ctx tun (.dialResult (.error err) :: rest)).phase
      = .returned (some (error.Wrap "failed to open downstream connection: " err)) ∧
    (error.Wrap "failed to open downstream connection: " err).Unwrap = some err ∧
    (runTunnel ctx tun (.dialResult (.error err) :: rest)).effects
      = [Effect.Dial tun.conf.network tun.conf.remoteAddr, Effect.Close tun.upstream] ∧
    (runTunnel ctx tun (.dialResult (.error err) :: rest)).closed tun.upstream = true ∧
    ((runTunnel ctx tun (.dialResult (.error err) :: rest)).effects.countP Effect.isDial = 1) ∧
    (∀ e ∈ (runTunnel ctx tun (.dialResult (.error err) :: rest)).effects, e.isCopy = false) ∧
    (runTunnel ctx tun (.dialResult (.error err) :: rest)).downstream = none := by
  have hst : runTunnel ctx tun (.dialResult (.error err) :: rest)
      = { phase := .returned (some (error.Wrap "failed to open downstream connection: " err)),
          downstream := none, copying := [], eg := errgroup.WithContext,
          effects := [Effect.Dial tun.conf.network tun.conf.remoteAddr,
            Effect.Close tun.upstream] } := by
    rw [runTunnel, List.foldl_cons]
    exact runTunnel_foldl_returned tun _ rest _ rfl
  rw [hst]
  simp [error.Unwrap, TunnelState.closed, Effect.isDial, Effect.isCopy]

/-- What holds of a call of `runTunnel` at every moment: no downstream
connection exists before the dial has returned, and once the call has returned
the upstream connection and the downstream connection, if any, are closed. -/
theorem runTunnel_invariant (tun : tunnel) :
    ∀ (script : List TunnelEvent) (st : TunnelState),
      ((st.phase = .dialing → st.downstream = none) ∧
        ∀ err, st.phase = .returned err →
          Effect.Close tun.upstream ∈ st.effects ∧
          ∀ d, st.downstream = some d → Effect.Close d ∈ st.effects) →
      (((script.foldl (runTunnelStep tun) st).phase = .dialing →
          (script.foldl (runTunnelStep tun) st).downstream = none) ∧
        ∀ err, (script.foldl (runTunnelStep tun) st).phase = .returned err →
          Effect.Close tun.upstream ∈ (script.foldl (runTunnelStep tun) st).effects ∧
          ∀ d, (script.foldl (runTunnelStep tun) st).downstream = some d →
            Effect.Close d ∈ (script.foldl (runTunnelStep tun) st).effects) := by
  intro script
  induction script with
  | nil => intro st h; exact h
  | cons ev rest ih =>
    intro st h
    rw [List.foldl_cons]
    apply ih
    obtain ⟨hd, hr⟩ := h
    rcases hph : st.phase with _ | _ | e
    · have hnone := hd hph
      rcases ev with (err | d) | ⟨task, err⟩ <;> simp [runTunnelStep, hph, hnone]
    · rcases hds : st.downstream with _ | d
      · rcases ev with (err | d) | ⟨task, err⟩ <;> simp [runTunnelStep, hph, hds]
      · rcases ev with (err | d') | ⟨task, err⟩
        · simp [runTunnelStep, hph, hds]
        · simp [runTunnelStep, hph, hds]
        · simp only [runTunnelStep, hph, hds]
          split
          · split <;> simp [hph, hds]
          · simp [hph, hds]
    · rw [runTunnelStep_returned tun st ev e hph]
      exact ⟨hd, hr⟩

/-- C6: on every path by which `runTunnel` returns, the upstream connection has
been closed and the downstream connection, if the dial produced one, has been
closed as well; so at the return the two connections are in the same state. -/
theorem runTunnel_returns_with_connections_closed (ctx : Context) (tun : tunnel)
    (script : List TunnelEvent) (err : Option error)
    (h : (runTunnel ctx tun script).phase = .returned err) :
    (runTunnel ctx tun script).closed tun.upstream = true ∧
    (∀ d, (runTunnel ctx tun script).downstream = some d →
      (runTunnel ctx tun script).closed d = true) ∧
    (∀ d, (runTunnel ctx tun script).downstream = some d →
      (runTunnel ctx tun script).closed d = (runTunnel ctx tun script).closed tun.upstream) := by
  have hinv := runTunnel_invariant tun script (runTunnelStart tun)
    ⟨fun _ => rfl, fun e he => by simp [runTunnelStart] at he⟩
  have hc := hinv.2 err h
  have hup : (runTunnel ctx tun script).closed tun.upstream = true := by
    simpa [TunnelState.closed] using hc.1
  have hdown : ∀ d, (runTunnel ctx tun script).downstream = some d →
      (runTunnel ctx tun script).closed d = true := by
    intro d hd
    simpa [TunnelState.closed] using hc.2 d hd
  exact ⟨hup, hdown, fun d hd => by rw [hdown d hd, hup]⟩


theorem runTunnel_returns_with_connections_closed_witness :
    (runTunnel .Background
        { upstream := ⟨1⟩, conf := ⟨"tcp", ":9090", "postgres:5432"⟩ }
        [.dialResult (.ok ⟨2⟩), .copyResult .toDownstream none,
         .copyResult .toUpstream (some (.New "connection reset by peer"))]).phase
      = .returned (some (.Wrap "tunnel error occurred: " (.New "connection reset by peer"))) ∧
    (runTunnel .Background
        { upstream := ⟨1⟩, conf := ⟨"tcp", ":9090", "postgres:5432"⟩ }
        [.dialResult (.ok ⟨2⟩), .copyResult .toDownstream none,
         .copyResult .toUpstream (some (.New "connection reset by peer"))]).closed ⟨1⟩ = true ∧
    (runTunnel .Background
        { upstream := ⟨1⟩, conf := ⟨"tcp", ":9090", "postgres:5432"⟩ }
        [.dialResult (.ok ⟨2⟩), .copyResult .toDownstream none,
         .copyResult .toUpstream (some (.New "connection reset by peer"))]).closed ⟨2⟩ = true :=
  ⟨by decide,
   (runTunnel_returns_with_connections_closed .Background
      { upstream := ⟨1⟩, conf := ⟨"tcp", ":9090", "postgres:5432"⟩ }
      [.dialResult (.ok ⟨2⟩), .copyResult .toDownstream none,
       .copyResult .toUpstream (some (.New "connection reset by peer"))]
      (some (.Wrap "tunnel error occurred: " (.New "connection reset by peer"))) (by decide)).1,
   (runTunnel_returns_with_connections_closed .Background
      { upstream := ⟨1⟩, conf := ⟨"tcp", ":9090", "postgres:5432"⟩ }
      [.dialResult (.ok ⟨2⟩), .copyResult .toDownstream none,
       .copyResult .toUpstream (some (.New "connection reset by peer"))]
      (some (.Wrap "tunnel error occurred: " (.New "connection reset by peer"))) (by decide)).2.1
      ⟨2⟩ (by decide)⟩

/-- C8 fails as stated: after a successful dial, when the copy towards the
downstream connection has ended (cleanly) and the other copy is still running,
`runTunnel` is still inside `eg.Wait()` and has closed neither connection. -/
theorem runTunnel_first_copy_end_closes_nothing :
    (runTunnel .Background
        { upstream := ⟨1⟩, conf := ⟨"tcp", ":9090", "postgres:5432"⟩ }
        [.dialResult (.ok ⟨2⟩), .copyResult .toDownstream none]).phase = .waiting ∧
    (runTunnel .Background
        { upstream := ⟨1⟩, conf := ⟨"tcp", ":9090", "postgres:5432"⟩ }
        [.dialResult (.ok ⟨2⟩), .copyResult .toDownstream none]).closed ⟨1⟩ = false ∧
    (runTunnel .Background
        { upstream := ⟨1⟩, conf := ⟨"tcp", ":9090", "postgres:5432"⟩ }
        [.dialResult (.ok ⟨2⟩), .copyResult .toDownstream none]).closed ⟨2⟩ = false ∧
    ¬ ((runTunnel .Background
        { upstream := ⟨1⟩, conf := ⟨"tcp", ":9090", "postgres:5432"⟩ }
        [.dialResult (.ok ⟨2⟩), .copyResult .toDownstream none]).closed ⟨1⟩ = true ∧
      (runTunnel .Background
        { upstream := ⟨1⟩, conf := ⟨"tcp", ":9090", "postgres:5432"⟩ }
        [.dialResult (.ok ⟨2⟩), .copyResult .toDownstream none]).closed ⟨2⟩ = true) := by
  decide

/-- C8 as amended: the session ends when both copy tasks have finished.  After
a successful dial, while only one of the two `io.Copy` tasks has returned
(cleanly or with an error), `runTunnel` stays inside `eg.Wait()` and has closed
no connection; as soon as the other task returns as well, `runTunnel` closes
the upstream and the downstream connection and returns. -/
theorem runTunnel_closes_after_both_copies (ctx : Context) (tun : tunnel) (downstream : Conn)
    (task : CopyTask) (err₁ err₂ : Option error) :
    (runTunnel ctx tun [.dialResult (.ok downstream), .copyResult task err₁]).phase
      = .waiting ∧
    (∀ c, (runTunnel ctx tun
      [.dialResult (.ok downstream), .copyResult task err₁]).closed c = false) ∧
    (runTunnel ctx tun [.dialResult (.ok downstream), .copyResult task err₁,
        .copyResult task.other err₂]).phase
      = .returned ((err₁.orElse fun _ => err₂).map (error.Wrap "tunnel error occurred: ")) ∧
    (runTunnel ctx tun [.dialResult (.ok downstream), .copyResult task err₁,
        .copyResult task.other err₂]).closed tun.upstream = true ∧
    (runTunnel ctx tun [.dialResult (.ok downstream), .copyResult task err₁,
        .copyResult task.other err₂]).closed downstream = true := by
  cases task <;> cases err₁ <;> cases err₂ <;>
    simp [runTunnel, runTunnelStep, runTunnelStart, TunnelState.closed, CopyTask.other,
      errgroup.Group.done, errgroup.Group.Go, errgroup.Group.Wait, errgroup.WithContext]

/-! ## `listen` -/

theorem listenStep_returned (ctx : Context) (conf : tunnelConf) (st : ListenState)
    (ev : ListenEvent) (err : Option error) (h : st.phase = .returned err) :
    (listenStep ctx conf st ev).phase = .returned err := by
  rcases ev with (_ | _) | id | _ | _ <;> simp [listenStep, h]
  split <;> simp [h]

theorem listenStep_never_nil (ctx : Context) (conf : tunnelConf) (st : ListenState)
    (ev : ListenEvent) (h : st.phase ≠ .returned none) :
    (listenStep ctx conf st ev).phase ≠ .returned none := by
  rcases hph : st.phase with _ | _ | e
  · rcases ev with (_ | _) | id | _ | _ <;>
      simp [listenStep, hph, listenCtxDone, listenAcceptReturn]
    · split <;> simp [listenCtxDone, listenAcceptReturn]
    · split <;> simp [hph]
  · rcases ev with (_ | _) | id | _ | _ <;>
      simp [listenStep, hph, listenCtxDone, listenAcceptReturn]
    split <;> simp [hph]
  · rw [listenStep_returned ctx conf st ev e hph]
    rw [hph] at h
    exact h

theorem listen_never_nil (ctx : Context) (conf : tunnelConf) :
    ∀ (script : List ListenEvent) (st : ListenState), st.phase ≠ .returned none →
      (script.foldl (listenStep ctx conf) st).phase ≠ .returned none := by
  intro script
  induction script with
  | nil => intro st h; exact h
  | cons ev rest ih =>
    intro st h
    rw [List.foldl_cons]
    exact ih _ (listenStep_never_nil ctx conf st ev h)

theorem listen_connections (ctx : Context) (conf : tunnelConf) :
    ∀ (conns : List Conn) (st : ListenState), st.phase = .accepting →
      (conns.map ListenEvent.connection).foldl (listenStep ctx conf) st
        = { st with effects := st.effects ++
              conns.map fun c => Effect.Send { upstream := c, conf := conf } } := by
  intro conns
  induction conns with
  | nil => intro st _; simp
  | cons c rest ih =>
    intro st h
    rw [List.map_cons, List.foldl_cons]
    have hstep : listenStep ctx conf st (.connection c)
        = { st with effects := st.effects ++ [Effect.Send { upstream := c, conf := conf }] } := by
      simp [listenStep, h]
    rw [hstep, ih { st with effects := st.effects ++ [Effect.Send { upstream := c, conf := conf }] } h]
    simp

/-- C7 fails as stated: a call of `listen` that is blocked in `Accept` when its
context is cancelled returns a non-nil error, not nil. -/
theorem listen_cancel_returns_error :
    (listen (.WithCancel .Background 1) ⟨"tcp", ":9090", "postgres:5432"⟩
        [.listenResult none]).phase = .accepting ∧
    (listen (.WithCancel .Background 1) ⟨"tcp", ":9090", "postgres:5432"⟩
        [.listenResult none, .cancelled 1]).phase
      = .returned (some (.Wrap "failed to accept incoming connection: " ErrClosed)) ∧
    ¬ (listen (.WithCancel .Background 1) ⟨"tcp", ":9090", "postgres:5432"⟩
        [.listenResult none, .cancelled 1]).phase = .returned none := by
  decide

/-- C7 as amended: when the cancellation signal fires while `listen` is blocked
in `Accept` (after any number of accepted connections), the listening socket is
closed and the resulting `Accept` failure makes `listen` leave its loop and
return a non-nil error that wraps the failure, as for every other failure of
`Accept`; `listen` never returns a nil error. -/
theorem listen_cancel_closes_and_returns_error (ctx : Context) (conf : tunnelConf)
    (conns : List Conn) (id : Nat) (hdone : ctx.Done [id] = true) :
    (listen ctx conf (.listenResult none :: conns.map .connection)).phase = .accepting ∧
    (listen ctx conf (.listenResult none :: conns.map .connection)).socketOpen = true ∧
    (listen ctx conf
      (.listenResult none :: (conns.map .connection ++ [.cancelled id]))).socketOpen = false ∧
    Effect.CloseListener conf.localAddr ∈ (listen ctx conf
      (.listenResult none :: (conns.map .connection ++ [.cancelled id]))).effects ∧
    (listen ctx conf
      (.listenResult none :: (conns.map .connection ++ [.cancelled id]))).phase
      = .returned (some (error.Wrap "failed to accept incoming connection: " ErrClosed)) ∧
    (∀ (err : error) (rest : List ListenEvent),
      (listen ctx conf
        (.listenResult none :: (conns.map .connection ++ .acceptFailed err :: rest))).phase
      = .returned (some (error.Wrap "failed to accept incoming connection: " err))) ∧
    (∀ script, (listen ctx conf script).phase ≠ .returned none) := by
  have hfirst : listenStep ctx conf (listenStart conf) (.listenResult none)
      = { phase := .accepting, ctxDone := false, socketOpen := true,
          effects := [Effect.Listen conf.network conf.localAddr] } := by
    simp [listenStep, listenStart]
  have hconns := listen_connections ctx conf conns
    { phase := .accepting, ctxDone := false, socketOpen := true,
      effects := [Effect.Listen conf.network conf.localAddr] } rfl
  have hret : ∀ (script : List ListenEvent) (st : ListenState) (e : Option error),
      st.phase = .returned e →
      (script.foldl (listenStep ctx conf) st).phase = .returned e := by
    intro script
    induction script with
    | nil => intro st e h; exact h
    | cons ev rest ih =>
      intro st e h
      rw [List.foldl_cons]
      exact ih _ e (listenStep_returned ctx conf st ev e h)
  refine ⟨?_, ?_, ?_, ?_, ?_, ?_, ?_⟩
  · rw [listen, List.foldl_cons, hfirst, hconns]
  · rw [listen, List.foldl_cons, hfirst, hconns]
  · rw [listen, List.foldl_cons, hfirst, List.foldl_append, hconns]
    simp [listenStep, hdone, listenCtxDone, listenAcceptReturn]
  · rw [listen, List.foldl_cons, hfirst, List.foldl_append, hconns]
    simp [listenStep, hdone, listenCtxDone, listenAcceptReturn]
  · rw [listen, List.foldl_cons, hfirst, List.foldl_append, hconns]
    simp [listenStep, hdone, listenCtxDone, listenAcceptReturn]
  · intro err rest
    rw [listen, List.foldl_cons, hfirst, List.foldl_append, hconns, List.foldl_cons]
    apply hret
    simp [listenStep, listenAcceptReturn]
  · intro script
    exact listen_never_nil ctx conf script (listenStart conf) (by simp [listenStart])

theorem listen_cancel_closes_and_returns_error_witness :
    Context.Done (.WithCancel .Background 1) [1] = true ∧
    (listen (.WithCancel .Background 1) ⟨"tcp", ":9090", "postgres:5432"⟩
      (.listenResult none :: ([⟨7⟩, ⟨8⟩].map .connection ++ [.cancelled 1]))).phase
      = .returned (some (error.Wrap "failed to accept incoming connection: " ErrClosed)) :=
  ⟨by decide,
   (listen_cancel_closes_and_returns_error (.WithCancel .Background 1)
      ⟨"tcp", ":9090", "postgres:5432"⟩ [⟨7⟩, ⟨8⟩] 1 (by decide)).2.2.2.2.1⟩


/-! ## The listeners of `main` -/

theorem listenStep_cancelled_background (conf : tunnelConf) (l : ListenState) (id : Nat) :
    listenStep .Background conf l (.cancelled id) = l := by
  simp [listenStep, Context.Done]

theorem listenerStep_cancelled_background (st : MainState) (j id : Nat) :
    listenerStep .Background st j (.cancelled id) = st := by
  unfold listenerStep
  rcases hj : st.listeners[j]? with _ | ⟨conf, l⟩
  · rfl
  · have hset : st.listeners.set j (conf, l) = st.listeners := by
      apply List.ext_getElem?
      intro k
      by_cases hk : j = k
      · subst hk
        rw [List.getElem?_set_self, hj]
        have hlt : j < st.listeners.length := by
          by_contra hge
          rw [List.getElem?_eq_none (by omega)] at hj
          exact absurd hj (by simp)
        simp [hlt]
      · rw [List.getElem?_set_ne hk]
    simp only [listenStep_cancelled_background, hset]
    rcases hph : l.phase with _ | _ | e <;> rfl

/-- With the background context given to the listeners, the cancel function of
the error group changes nothing: a step of the listeners is the step of the
one listener that the event reaches. -/
theorem mainStep_background (st : MainState) (e : Nat × ListenEvent) :
    mainStep .Background st e = listenerStep .Background st e.1 e.2 := by
  have hfold : ∀ (js : List Nat) (s : MainState),
      js.foldl (fun s j => listenerStep .Background s j (.cancelled egCancel)) s = s := by
    intro js
    induction js with
    | nil => intro s; rfl
    | cons j rest ih =>
      intro s
      rw [List.foldl_cons, listenerStep_cancelled_background, ih]
  unfold mainStep
  simp only [hfold]
  split <;> rfl

theorem listenStep_background_benign (conf : tunnelConf) (l : ListenState) (ev : ListenEvent)
    (hev : ev.benign = true) (hph : l.phase = .binding ∨ l.phase = .accepting)
    (hctx : l.ctxDone = false) (hopen : ∀ a, Effect.CloseListener a ∉ l.effects) :
    ((listenStep .Background conf l ev).phase = .binding ∨
      (listenStep .Background conf l ev).phase = .accepting) ∧
    (listenStep .Background conf l ev).ctxDone = false ∧
    (∀ a, Effect.CloseListener a ∉ (listenStep .Background conf l ev).effects) := by
  rcases ev with (_ | _) | id | c | _
  · rcases hph with h | h <;> simp [listenStep, h, hctx, hopen]
  · simp [ListenEvent.benign] at hev
  · rw [listenStep_cancelled_background]; exact ⟨hph, hctx, hopen⟩
  · rcases hph with h | h <;> simp [listenStep, h, hctx, hopen]
  · simp [ListenEvent.benign] at hev

theorem done_running (g : errgroup.Group) (err : Option error) :
    (g.done err).running = g.running - 1 := by
  unfold errgroup.Group.done
  split <;> rfl

theorem done_cancelled (g : errgroup.Group) (err : Option error)
    (h : g.cancelled = true) : (g.done err).cancelled = true := by
  unfold errgroup.Group.done
  split
  · rfl
  · exact h

/-- One step of `main` with two listeners, the event not making the second
listener fail by itself: the second listener does not return, its context stays
not done and its socket is not closed; the first listener, once returned, stays
so; the counter of the error group is 2 before and 1 after the return of the
first listener. -/
theorem second_listener_step (conf₀ conf₁ : tunnelConf) (st : MainState)
    (l₀ l₁ : ListenState) (i : Nat) (ev : ListenEvent)
    (hev : i = 1 → ev.benign = true)
    (hls : st.listeners = [(conf₀, l₀), (conf₁, l₁)])
    (hph₁ : l₁.phase = .binding ∨ l₁.phase = .accepting)
    (hctx₁ : l₁.ctxDone = false)
    (hopen₁ : ∀ a, Effect.CloseListener a ∉ l₁.effects)
    (hrun : ((∃ r, l₀.phase = .returned r) ∧ st.eg.running = 1) ∨
      ((∀ r, l₀.phase ≠ .returned r) ∧ st.eg.running = 2)) :
    ∃ l₀' l₁', (listenerStep .Background st i ev).listeners = [(conf₀, l₀'), (conf₁, l₁')] ∧
      (l₁'.phase = .binding ∨ l₁'.phase = .accepting) ∧ l₁'.ctxDone = false ∧
      (∀ a, Effect.CloseListener a ∉ l₁'.effects) ∧
      (((∃ r, l₀'.phase = .returned r) ∧ (listenerStep .Background st i ev).eg.running = 1) ∨
        ((∀ r, l₀'.phase ≠ .returned r) ∧
          (listenerStep .Background st i ev).eg.running = 2)) ∧
      (∀ r, l₀.phase = .returned r → l₀'.phase = .returned r) ∧
      (st.eg.cancelled = true → (listenerStep .Background st i ev).eg.cancelled = true) ∧
      (listenerStep .Background st i ev).status = st.status ∧
      (listenerStep .Background st i ev).effects = st.effects := by
  match i with
  | 0 =>
    simp only [listenerStep, hls, List.getElem?_cons_zero, List.set_cons_zero]
    rcases hp : l₀.phase with _ | _ | r
    · have hrun2 : st.eg.running = 2 := by
        rcases hrun with ⟨⟨x, hx⟩, _⟩ | ⟨_, h2⟩
        · rw [hp] at hx; exact absurd hx (by simp)
        · exact h2
      rcases hp' : (listenStep .Background conf₀ l₀ ev).phase with _ | _ | r'
      · exact ⟨_, l₁, rfl, hph₁, hctx₁, hopen₁, Or.inr ⟨by simp [hp'], hrun2⟩, by simp,
          fun h => h, rfl, rfl⟩
      · exact ⟨_, l₁, rfl, hph₁, hctx₁, hopen₁, Or.inr ⟨by simp [hp'], hrun2⟩, by simp,
          fun h => h, rfl, rfl⟩
      · exact ⟨_, l₁, rfl, hph₁, hctx₁, hopen₁,
          Or.inl ⟨⟨r', hp'⟩, by simp [done_running, hrun2]⟩, by simp,
          fun h => done_cancelled _ _ h, rfl, rfl⟩
    · have hrun2 : st.eg.running = 2 := by
        rcases hrun with ⟨⟨x, hx⟩, _⟩ | ⟨_, h2⟩
        · rw [hp] at hx; exact absurd hx (by simp)
        · exact h2
      rcases hp' : (listenStep .Background conf₀ l₀ ev).phase with _ | _ | r'
      · exact ⟨_, l₁, rfl, hph₁, hctx₁, hopen₁, Or.inr ⟨by simp [hp'], hrun2⟩, by simp,
          fun h => h, rfl, rfl⟩
      · exact ⟨_, l₁, rfl, hph₁, hctx₁, hopen₁, Or.inr ⟨by simp [hp'], hrun2⟩, by simp,
          fun h => h, rfl, rfl⟩
      · exact ⟨_, l₁, rfl, hph₁, hctx₁, hopen₁,
          Or.inl ⟨⟨r', hp'⟩, by simp [done_running, hrun2]⟩, by simp,
          fun h => done_cancelled _ _ h, rfl, rfl⟩
    · have hp' := listenStep_returned .Background conf₀ l₀ ev r hp
      have hrun1 : st.eg.running = 1 := by
        rcases hrun with ⟨_, h1⟩ | ⟨hno, _⟩
        · exact h1
        · exact absurd hp (hno r)
      simp only [hp']
      exact ⟨_, l₁, rfl, hph₁, hctx₁, hopen₁, Or.inl ⟨⟨r, hp'⟩, hrun1⟩,
        fun r' hr' => by rw [hp']; exact hr', fun h => h, trivial, trivial⟩
  | 1 =>
    obtain ⟨hph', hctx', hopen'⟩ :=
      listenStep_background_benign conf₁ l₁ ev (hev rfl) hph₁ hctx₁ hopen₁
    simp only [listenerStep, hls, List.getElem?_cons_succ, List.getElem?_cons_zero,
      List.set_cons_succ, List.set_cons_zero]
    rcases hph₁ with hp | hp <;> rcases hph' with hp' | hp' <;>
      simp only [hp, hp'] <;>
      exact ⟨l₀, _, rfl, by simp [hp'], hctx', hopen', hrun, fun _ h => h, fun h => h,
        trivial, trivial⟩
  | k + 2 =>
    have hnone : st.listeners[k + 2]? = none := by simp [hls]
    simp only [listenerStep, hnone]
    exact ⟨l₀, l₁, hls, hph₁, hctx₁, hopen₁, hrun, fun _ h => h, fun h => h, trivial, trivial⟩

/-- The same along a whole script. -/
theorem second_listener_invariant (conf₀ conf₁ : tunnelConf) :
    ∀ (script : List (Nat × ListenEvent)) (st : MainState) (l₀ l₁ : ListenState),
      (∀ ev ∈ script, ev.1 = 1 → ev.2.benign = true) →
      st.listeners = [(conf₀, l₀), (conf₁, l₁)] →
      (l₁.phase = .binding ∨ l₁.phase = .accepting) →
      l₁.ctxDone = false →
      (∀ a, Effect.CloseListener a ∉ l₁.effects) →
      (((∃ r, l₀.phase = .returned r) ∧ st.eg.running = 1) ∨
        ((∀ r, l₀.phase ≠ .returned r) ∧ st.eg.running = 2)) →
      ∃ l₀' l₁', (script.foldl (mainStep .Background) st).listeners
            = [(conf₀, l₀'), (conf₁, l₁')] ∧
        (l₁'.phase = .binding ∨ l₁'.phase = .accepting) ∧ l₁'.ctxDone = false ∧
        (∀ a, Effect.CloseListener a ∉ l₁'.effects) ∧
        (((∃ r, l₀'.phase = .returned r) ∧
            (script.foldl (mainStep .Background) st).eg.running = 1) ∨
          ((∀ r, l₀'.phase ≠ .returned r) ∧
            (script.foldl (mainStep .Background) st).eg.running = 2)) ∧
        (∀ r, l₀.phase = .returned r → l₀'.phase = .returned r) ∧
        (st.eg.cancelled = true →
          (script.foldl (mainStep .Background) st).eg.cancelled = true) ∧
        (script.foldl (mainStep .Background) st).status = st.status ∧
        (script.foldl (mainStep .Background) st).effects = st.effects := by
  intro script
  induction script with
  | nil =>
    intro st l₀ l₁ _ hls hph hctx hopen hrun
    exact ⟨l₀, l₁, hls, hph, hctx, hopen, hrun, fun _ h => h, fun h => h, rfl, rfl⟩
  | cons ev rest ih =>
    intro st l₀ l₁ hben hls hph hctx hopen hrun
    rw [List.foldl_cons, mainStep_background]
    have hrest : ∀ ev' ∈ rest, ev'.1 = 1 → ev'.2.benign = true :=
      fun ev' hmem => hben ev' (List.mem_cons_of_mem _ hmem)
    obtain ⟨m₀, m₁, hls', hph', hctx', hopen', hrun', hret', hcan', hstat', heff'⟩ :=
      second_listener_step conf₀ conf₁ st l₀ l₁ ev.1 ev.2
        (hben ev (List.mem_cons_self _ _)) hls hph hctx hopen hrun
    obtain ⟨n₀, n₁, hls'', hph'', hctx'', hopen'', hrun'', hret'', hcan'', hstat'', heff''⟩ :=
      ih _ m₀ m₁ hrest hls' hph' hctx' hopen' hrun'
    exact ⟨n₀, n₁, hls'', hph'', hctx'', hopen'', hrun'',
      fun r hr => hret'' r (hret' r hr), fun h => hcan'' (hcan' h),
      hstat''.trans hstat', heff''.trans heff'⟩

/-- C9 fails on the code.  `main` starts two listeners and the first one returns
an error (its `net.Listen` fails).  As long as no event makes the second
listener fail by itself, the error group has called its cancel function, but
the second listener has not returned, its context is not done and its socket
has not been closed; `main` is still inside `eg.Wait()`: the process has not
ended, and no fatal error has been logged. -/
theorem main_listener_error_not_escalated (env : Environ) (conf₀ conf₁ : tunnelConf)
    (err : error) (script : List (Nat × ListenEvent))
    (hcfg : loadConfig env = [conf₀, conf₁])
    (hbenign : ∀ ev ∈ script, ev.1 = 1 → ev.2.benign = true) :
    (main env ((0, .listenResult (some err)) :: script)).status = .running ∧
    (main env ((0, .listenResult (some err)) :: script)).eg.cancelled = true ∧
    (main env ((0, .listenResult (some err)) :: script)).eg.Wait = none ∧
    (∃ l₀ l₁, (main env ((0, .listenResult (some err)) :: script)).listeners
        = [(conf₀, l₀), (conf₁, l₁)] ∧
      l₀.phase = .returned (some (error.Wrap "failed to open local listener: " err)) ∧
      (l₁.phase = .binding ∨ l₁.phase = .accepting) ∧ l₁.ctxDone = false ∧
      (∀ a, Effect.CloseListener a ∉ l₁.effects)) ∧
    (∀ e ∈ (main env ((0, .listenResult (some err)) :: script)).effects,
      ∀ msg r, e ≠ Effect.Fatal msg r) := by
  have hstart : mainStep .Background (startListeners [conf₀, conf₁])
        (0, .listenResult (some err))
      = { status := .running,
          effects := [Effect.GoProcessIncomingConnections, Effect.GoListen conf₀,
            Effect.GoListen conf₁],
          listeners :=
            [(conf₀, { phase := .returned
                        (some (error.Wrap "failed to open local listener: " err)),
                       ctxDone := false, socketOpen := false,
                       effects := [Effect.Listen conf₀.network conf₀.localAddr] }),
             (conf₁, listenStart conf₁)],
          eg := { running := 1,
                  err := some (error.Wrap "failed to open local listener: " err),
                  cancelled := true } } := by
    rw [mainStep_background]
    simp [listenerStep, startListeners, listenStep, listenStart, errgroup.Group.done,
      errgroup.Group.Go, errgroup.WithContext]
  obtain ⟨l₀, l₁, hls, hph, hctx, hopen, hrun, hret, hcan, hstat, heff⟩ :=
    second_listener_invariant conf₀ conf₁ script
      (mainStep .Background (startListeners [conf₀, conf₁]) (0, .listenResult (some err)))
      { phase := .returned (some (error.Wrap "failed to open local listener: " err)),
        ctxDone := false, socketOpen := false,
        effects := [Effect.Listen conf₀.network conf₀.localAddr] }
      (listenStart conf₁) hbenign
      (by rw [hstart]) (Or.inl (by simp [listenStart])) (by simp [listenStart])
      (by simp [listenStart]) (Or.inl ⟨⟨_, rfl⟩, by rw [hstart]⟩)
  have hl₀ := hret _ rfl
  have hrunning : (script.foldl (mainStep .Background)
      (mainStep .Background (startListeners [conf₀, conf₁])
        (0, .listenResult (some err)))).eg.running = 1 := by
    rcases hrun with ⟨_, h1⟩ | ⟨hno, _⟩
    · exact h1
    · exact absurd hl₀ (hno _)
  have hwait : (script.foldl (mainStep .Background)
      (mainStep .Background (startListeners [conf₀, conf₁])
        (0, .listenResult (some err)))).eg.Wait = none := by
    simp [errgroup.Group.Wait, hrunning]
  have hmain : main env ((0, .listenResult (some err)) :: script)
      = script.foldl (mainStep .Background)
          (mainStep .Background (startListeners [conf₀, conf₁])
            (0, .listenResult (some err))) := by
    simp only [main, hcfg, List.foldl_cons]
    simp [hwait]
  rw [hmain]
  refine ⟨?_, ?_, hwait, ⟨l₀, l₁, hls, hl₀, hph, hctx, hopen⟩, ?_⟩
  · rw [hstat, hstart]
  · exact hcan (by rw [hstart])
  · rw [heff, hstart]
    simp

theorem main_listener_error_not_escalated_witness :
    loadConfig twoTunnels
      = [⟨"tcp", ":9090", "postgres:5432"⟩, ⟨"tcp", ":9091", "redis:6379"⟩] ∧
    (main twoTunnels [(0, .listenResult (some (.New "bind: address already in use"))),
        (1, .listenResult none), (1, .connection ⟨1⟩)]).status = .running ∧
    (main twoTunnels [(0, .listenResult (some (.New "bind: address already in use"))),
        (1, .listenResult none), (1, .connection ⟨1⟩)]).eg.cancelled = true :=
  ⟨by decide,
   (main_listener_error_not_escalated twoTunnels ⟨"tcp", ":9090", "postgres:5432"⟩
      ⟨"tcp", ":9091", "redis:6379"⟩ (.New "bind: address already in use")
      [(1, .listenResult none), (1, .connection ⟨1⟩)] (by decide) (by decide)).1,
   (main_listener_error_not_escalated twoTunnels ⟨"tcp", ":9090", "postgres:5432"⟩
      ⟨"tcp", ":9091", "redis:6379"⟩ (.New "bind: address already in use")
      [(1, .listenResult none), (1, .connection ⟨1⟩)] (by decide) (by decide)).2.1⟩

/-- Had the listeners been given the context derived by
`errgroup.WithContext(ctx)`, the failure of the first listener would have
cancelled the second one (its socket closed, the call returned), and `eg.Wait()`
would have returned the first error. -/
theorem listeners_cancelled_with_derived_context :
    ([(1, ListenEvent.listenResult none),
      (0, ListenEvent.listenResult (some (.New "bind: address already in use")))].foldl
        (mainStep (.WithCancel .Background egCancel))
        (startListeners (loadConfig twoTunnels))).eg.Wait
      = some (some (.Wrap "failed to open local listener: "
          (.New "bind: address already in use"))) ∧
    (([(1, ListenEvent.listenResult none),
      (0, ListenEvent.listenResult (some (.New "bind: address already in use")))].foldl
        (mainStep (.WithCancel .Background egCancel))
        (startListeners (loadConfig twoTunnels))).listeners.map fun l => l.2.phase)
      = [.returned (some (.Wrap "failed to open local listener: "
            (.New "bind: address already in use"))),
         .returned (some (.Wrap "failed to accept incoming connection: " ErrClosed))] := by
  decide

end PortForward
